import Mathlib

/-!
# Verification of the autotriage_mcp classification-and-reconciliation engine

Shallow embedding of the TypeScript sources (`src/classifier.ts`, `src/github.ts`,
`src/utils.ts`, `src/index.ts`) of the GitHub issue triage MCP server, together
with proofs of the spec's testable properties.

Text is modelled at the character level (`List Char` / `String`); JavaScript
string operations (`includes`, `toLowerCase`, `trim`, `substring`) are embedded
as character-list functions.  Fallible external calls (the Gemini oracle, the
GitHub label/comment API) are modelled by `Except`-valued parameters supplied by
the environment.
-/

namespace Autotriage

/-! ## Character-level string primitives (JS semantics) -/

/-- JS `\s` / `trim` whitespace, restricted to the ASCII range plus NBSP
(the only characters relevant to the patterns in this codebase). -/
def isJsSpace (c : Char) : Bool :=
  c == ' ' || c == '\t' || c == '\n' || c == '\r' || c == '\x0b' ||
  c == '\x0c' || c == ' '

/-- `p` is a prefix of `s` (character-wise). -/
def isPrefixB : List Char → List Char → Bool
  | [], _ => true
  | _ :: _, [] => false
  | a :: as, b :: bs => a == b && isPrefixB as bs

/-- `pat` occurs as a contiguous substring of `s` — JS `s.includes(pat)`. -/
def containsSub (pat : List Char) : List Char → Bool
  | [] => isPrefixB pat []
  | c :: cs => isPrefixB pat (c :: cs) || containsSub pat cs

/-- JS `s.includes(pat)` on `String`s. -/
def containsStr (s pat : String) : Bool :=
  containsSub pat.data s.data

/-- JS `s.toLowerCase()` (ASCII). -/
def lowerStr (s : String) : String := ⟨s.data.map Char.toLower⟩

/-- JS `s.toUpperCase()` (ASCII). -/
def upperStr (s : String) : String := ⟨s.data.map Char.toUpper⟩

/-- JS `s.trim()`. -/
def trimStr (s : String) : String :=
  ⟨((s.data.dropWhile isJsSpace).reverse.dropWhile isJsSpace).reverse⟩

/-- There is a position in `s` at which the positional matcher `p` succeeds. -/
def existsPos (p : List Char → Bool) : List Char → Bool
  | [] => p []
  | c :: cs => p (c :: cs) || existsPos p cs

/-- Match a literal at the current position, returning the rest of the input. -/
def matchLit : List Char → List Char → Option (List Char)
  | [], s => some s
  | _ :: _, [] => none
  | p :: ps, c :: cs => if p == c then matchLit ps cs else none

/-- Drop a (possibly empty) run of whitespace. -/
def dropSpaces : List Char → List Char
  | [] => []
  | c :: cs => if isJsSpace c then dropSpaces cs else c :: cs

/-- Regex `\s+` at the current position (greedy; the continuation in every
pattern of this codebase starts with a non-space character, so maximal munch is
exact). -/
def matchSpaces1 : List Char → Option (List Char)
  | [] => none
  | c :: cs => if isJsSpace c then some (dropSpaces cs) else none

/-- Positional matcher for regexes of the shape `word\s+(alt₁|alt₂|…)`. -/
def matchWordSpaceAlt (w : List Char) (alts : List (List Char))
    (s : List Char) : Bool :=
  match matchLit w s with
  | none => false
  | some rest =>
    match matchSpaces1 rest with
    | none => false
    | some rest2 => alts.any (fun a => (matchLit a rest2).isSome)

/-- Positional matcher for `CVE-\d+` (case already folded). -/
def matchCVE (s : List Char) : Bool :=
  match matchLit "cve-".data s with
  | none => false
  | some rest =>
    match rest with
    | c :: _ => c.isDigit
    | [] => false

/-! ## Classifier data model (`src/classifier.ts`) -/

inductive IssueType where
  | bug | feature | enhancement | question
deriving DecidableEq, Repr

inductive IssuePriority where
  | P0 | P1 | P2 | P3
deriving DecidableEq, Repr

inductive IssueComplexity where
  | Low | Medium | High
deriving DecidableEq, Repr

def IssueType.toStr : IssueType → String
  | .bug => "bug"
  | .feature => "feature"
  | .enhancement => "enhancement"
  | .question => "question"

def IssuePriority.toStr : IssuePriority → String
  | .P0 => "P0"
  | .P1 => "P1"
  | .P2 => "P2"
  | .P3 => "P3"

def IssueComplexity.toStr : IssueComplexity → String
  | .Low => "Low"
  | .Medium => "Medium"
  | .High => "High"

/-- `Classification` — the structured judgment `{type, priority, complexity,
reasoning}`. -/
structure Classification where
  type : IssueType
  priority : IssuePriority
  complexity : IssueComplexity
  reasoning : String
deriving DecidableEq, Repr

/-! ## P0 keyword heuristic (`P0_KEYWORDS` / `checkP0Keywords`) -/

/-- `P0_KEYWORDS.some(pattern => pattern.test(text))` — the ten
case-insensitive patterns of `src/classifier.ts`, evaluated on the case-folded
text.  `/crash(ed|ing)?/`, `/severe/`, `/urgent/`, `/exploit/` and
`/vulnerability/` reduce to substring tests because their suffixes are
optional or absent. -/
def testP0Patterns (text : List Char) : Bool :=
  let t := text.map Char.toLower
  containsSub "crash".data t ||
  existsPos (matchWordSpaceAlt "security".data
    ["vulnerability".data, "issue".data, "bug".data, "flaw".data]) t ||
  existsPos (matchWordSpaceAlt "data".data ["loss".data]) t ||
  existsPos (matchWordSpaceAlt "production".data ["down".data]) t ||
  existsPos (matchWordSpaceAlt "critical".data ["bug".data, "issue".data]) t ||
  containsSub "severe".data t ||
  containsSub "urgent".data t ||
  containsSub "exploit".data t ||
  existsPos matchCVE t ||
  containsSub "vulnerability".data t

/-- `checkP0Keywords(title, body)`: tests the patterns against
`` `${title} ${body}` ``. -/
def checkP0Keywords (title body : String) : Bool :=
  testP0Patterns (title ++ " " ++ body).data

/-! ## Body truncation (`truncateIssueBody`) -/

def truncationMarker : String := "\n\n[... truncated for analysis]"

/-- `truncateIssueBody(body, maxLength = 2000)`. -/
def truncateIssueBody (body : String) (maxLength : Nat := 2000) : String :=
  if body.length ≤ maxLength then body
  else String.mk (body.data.take maxLength) ++ truncationMarker

/-! ## Oracle response validation (`classifyIssueWithGemini`) -/

/-- The JSON object shape the Gemini adapter expects; each field is `none` when
absent from the parsed JSON. -/
structure GeminiJson where
  type? : Option String
  priority? : Option String
  complexity? : Option String
  reasoning? : Option String
deriving DecidableEq, Repr

/-- JS truthiness of an (optional) string field: absent and `""` are falsy. -/
def strTruthy : Option String → Bool
  | none => false
  | some s => s ≠ ""

def parseIssueType : String → Option IssueType
  | "bug" => some .bug
  | "feature" => some .feature
  | "enhancement" => some .enhancement
  | "question" => some .question
  | _ => none

def parseIssuePriority : String → Option IssuePriority
  | "P0" => some .P0
  | "P1" => some .P1
  | "P2" => some .P2
  | "P3" => some .P3
  | _ => none

def parseIssueComplexity : String → Option IssueComplexity
  | "Low" => some .Low
  | "Medium" => some .Medium
  | "High" => some .High
  | _ => none

/-- The fixed fallback classification of `classifyIssueWithGemini`'s `catch`
branch. -/
def fallbackClassification : Classification :=
  ⟨.bug, .P2, .Medium, "Classification failed, using default values"⟩

/-- The parse-and-validate block of `classifyIssueWithGemini`: `none` models
`JSON.parse` throwing; otherwise the four truthiness checks and the three
enum-membership checks run in order, any violation landing in the `catch`
branch that substitutes `fallbackClassification`. -/
def validateGeminiResponse (parsed : Option GeminiJson) : Classification :=
  match parsed with
  | none => fallbackClassification
  | some p =>
    if !strTruthy p.type? || !strTruthy p.priority? ||
        !strTruthy p.complexity? || !strTruthy p.reasoning? then
      fallbackClassification
    else
      match parseIssueType (p.type?.getD ""),
            parseIssuePriority (p.priority?.getD ""),
            parseIssueComplexity (p.complexity?.getD "") with
      | some t, some pr, some cx => ⟨t, pr, cx, p.reasoning?.getD ""⟩
      | _, _, _ => fallbackClassification

/-- `classifyIssueWithGemini`, parameterized by the outcome of the oracle
invocation: a total invocation failure (`Except.error`) propagates; a received
response (already JSON-parsed, `none` on parse failure) is validated. -/
def classifyIssueWithGemini (call : Except String (Option GeminiJson)) :
    Except String Classification :=
  match call with
  | .error e => .error e
  | .ok parsed => .ok (validateGeminiResponse parsed)

/-- A response that (per the claim) must degrade to the fallback: JSON parse
failure, a missing/falsy required field, or an out-of-enumeration value. -/
def badGeminiResponse : Option GeminiJson → Bool
  | none => true
  | some p =>
    !strTruthy p.type? || !strTruthy p.priority? ||
    !strTruthy p.complexity? || !strTruthy p.reasoning? ||
    (parseIssueType (p.type?.getD "")).isNone ||
    (parseIssuePriority (p.priority?.getD "")).isNone ||
    (parseIssueComplexity (p.complexity?.getD "")).isNone

/-! ## Classification policy (`classifyIssue`) -/

/-- `classifyIssue(title, body)`, parameterized by the classification the
oracle adapter returned (`classifyIssueWithGemini`'s successful result). -/
def classifyIssue (title body : String) (oracle : Classification) :
    Classification :=
  if checkP0Keywords title body then
    { oracle with
      priority := .P0,
      reasoning := "P0 override applied due to critical keywords. " ++
        oracle.reasoning }
  else oracle

/-! ## Label reconciliation (`removeTriageLabels` / `mapToKebabLabels` /
`applyLabels`) -/

/-- `TRIAGE_LABEL_PATTERNS`: the regex matching labels that start with
`type-`, `priority-` or `complexity-`. -/
def isTriageLabel (l : String) : Bool :=
  isPrefixB "type-".data l.data || isPrefixB "priority-".data l.data ||
  isPrefixB "complexity-".data l.data

/-- The filter step of `removeTriageLabels`: the current labels slated for
removal. -/
def triageLabelsToRemove (currentLabels : List String) : List String :=
  currentLabels.filter isTriageLabel

/-- `mapToKebabLabels(classification)`. -/
def mapToKebabLabels (c : Classification) : List String :=
  ["type-" ++ c.type.toStr,
   "priority-" ++ lowerStr c.priority.toStr,
   "complexity-" ++ lowerStr c.complexity.toStr]

/-- The case-insensitive deduplication step of `applyLabels`. -/
def dedupeLabels (labels : List String) : List String :=
  labels.foldl
    (fun acc label =>
      let normalized := trimStr (lowerStr label)
      if acc.any (fun l => lowerStr l == normalized) then acc
      else acc ++ [trimStr label])
    []

/-- The label triple built by the `batch_triage` handler (index.ts lines
842–847): note the bare upper-cased priority, unlike `mapToKebabLabels`. -/
def batchLabels (c : Classification) : List String :=
  ["type-" ++ lowerStr c.type.toStr,
   upperStr c.priority.toStr,
   "complexity-" ++ lowerStr c.complexity.toStr]

/-- The lowercase triage label convention
`type-<type>` / `priority-<pN>` / `complexity-<level>` from the spec's data
model. -/
def isConventionLabel (l : String) : Bool :=
  ["type-bug", "type-feature", "type-enhancement", "type-question"].contains l ||
  ["priority-p0", "priority-p1", "priority-p2", "priority-p3"].contains l ||
  ["complexity-low", "complexity-medium", "complexity-high"].contains l

/-! ## Triage comment generation and the annotation guard
(`generateTriageComment` / `checkExistingTriageComment`) -/

/-- `TRIAGE_COMMENT_SIGNATURE` from `src/github.ts`. -/
def TRIAGE_COMMENT_SIGNATURE : String := "🔎 Issue Triage Summary"

/-- The `steps` array built by `generateNextSteps`: priority-based entries
followed by type-based entries (none for `enhancement`). -/
def nextStepsList (c : Classification) : List String :=
  (match c.priority with
   | .P0 => ["🚨 **Immediate attention required** - This is a critical issue",
             "Assign to on-call engineer or team lead",
             "Create incident response ticket if needed"]
   | .P1 => ["Review and assign to appropriate team member within 24 hours",
             "Add to current sprint if capacity allows"]
   | .P2 => ["Add to backlog for prioritization in next sprint planning",
             "Assess against current roadmap"]
   | .P3 => ["Add to backlog for future consideration",
             "May be suitable for community contributions"]) ++
  (match c.type with
   | .bug => ["Verify reproduction steps",
              "Add relevant test cases to prevent regression"]
   | .feature => ["Gather requirements and create technical design if approved",
                  "Estimate effort and dependencies"]
   | .question => ["Provide clear answer or point to relevant documentation",
                   "Consider if documentation needs improvement"]
   | .enhancement => [])

/-- `` steps.map((step, i) => `${i + 1}. ${step}`) ``. -/
def numberStepsFrom : Nat → List String → List String
  | _, [] => []
  | i, s :: rest => (toString (i + 1) ++ ". " ++ s) :: numberStepsFrom (i + 1) rest

/-- JS `Array.prototype.join(sep)`. -/
def joinWith (sep : String) : List String → String
  | [] => ""
  | [s] => s
  | s :: rest => s ++ sep ++ joinWith sep rest

/-- `generateNextSteps(classification)`. -/
def generateNextSteps (c : Classification) : String :=
  joinWith "\n" (numberStepsFrom 0 (nextStepsList c))

/-- `generateTriageComment(classification)`.  The template literal is written
here as the signature constant followed by the remaining text (the source
spells the signature inline at the start of the literal). -/
def generateTriageComment (c : Classification) : String :=
  TRIAGE_COMMENT_SIGNATURE ++
    ("\n\n**Type:** " ++ c.type.toStr ++
     "\n**Priority:** " ++ c.priority.toStr ++
     "\n**Complexity:** " ++ c.complexity.toStr ++
     "\n\n**Reasoning:**\n" ++ c.reasoning ++
     "\n\n**Suggested Next Steps:**\n" ++ generateNextSteps c ++
     "\n\n---\n*This triage was performed automatically. Re-running will update labels without duplicating this comment.*")

/-- `comment.body?.includes(TRIAGE_COMMENT_SIGNATURE)`: a comment's body is
optional; an absent body never matches. -/
def commentHasSignature (body : Option String) : Bool :=
  match body with
  | none => false
  | some s => containsStr s TRIAGE_COMMENT_SIGNATURE

/-- `checkExistingTriageComment`, applied to the bodies of the record's
comments: `response.data.some(comment => comment.body?.includes(sig))`. -/
def checkExistingTriageComment (comments : List (Option String)) : Bool :=
  comments.any commentHasSignature

/-- The number of comments on the record that carry the signature. -/
def countSignatureComments (comments : List (Option String)) : Nat :=
  (comments.filter commentHasSignature).length

/-- The comment-posting step of the maintainer-mode `triage_issue` handler
(index.ts steps 2 and 6): the guard is read first, and the rationale comment
is posted exactly when the guard found no existing signature comment.  Returns
the new comment list and the guard's report (`true` = "existing comment
preserved, no duplicate posted"). -/
def triageCommentStep (c : Classification) (comments : List (Option String)) :
    List (Option String) × Bool :=
  let hasExistingComment := checkExistingTriageComment comments
  if hasExistingComment then (comments, true)
  else (comments ++ [some (generateTriageComment c)], false)

/-- `n` successive maintainer-mode triage runs on the same unchanged record
(only the comment state evolves between runs). -/
def triageCommentRuns (c : Classification) : Nat → List (Option String) →
    List (Option String)
  | 0, comments => comments
  | n + 1, comments => triageCommentRuns c n (triageCommentStep c comments).1

/-! ## Retry policy (`withRetry`, `src/utils.ts`) -/

/-- The shape of a thrown JS error as inspected by `withRetry`: an optional
`status` and an optional `message`. -/
structure JsError where
  status : Option Nat
  message : Option String
deriving DecidableEq, Repr

/-- The `is429` test of `withRetry`: status 429, or a message containing
"429", "RESOURCE_EXHAUSTED" or "rate limit". -/
def isRateLimitError (e : JsError) : Bool :=
  e.status == some 429 ||
  (match e.message with
   | none => false
   | some m =>
     containsStr m "429" || containsStr m "RESOURCE_EXHAUSTED" ||
     containsStr m "rate limit")

inductive RetryResult (α : Type) where
  | ok (value : α)
  | failed (e : JsError)
  | exhausted
deriving DecidableEq, Repr

/-- Outcome of a `withRetry` run: the result, the indices of the attempts
made, and the backoff delays slept (in milliseconds) between attempts. -/
structure RetryTrace (α : Type) where
  result : RetryResult α
  attempts : List Nat
  delays : List Nat
deriving DecidableEq, Repr

/-- The `for` loop of `withRetry`, at attempt index `i` with `remaining`
iterations left (`remaining = maxRetries - i`, so the source's
`i === maxRetries - 1` test is `remaining = 1`).  The attempt outcomes are
supplied by `fn`; the delay computed after a retried failure at attempt `i` is
`Math.pow(2, i) * 1000`. -/
def withRetryGo {α : Type} (fn : Nat → Except JsError α) :
    Nat → Nat → RetryTrace α
  | 0, _ => ⟨.exhausted, [], []⟩
  | remaining + 1, i =>
    match fn i with
    | .ok a => ⟨.ok a, [i], []⟩
    | .error e =>
      if !isRateLimitError e || remaining == 0 then ⟨.failed e, [i], []⟩
      else
        let rest := withRetryGo fn remaining (i + 1)
        ⟨rest.result, i :: rest.attempts, 2 ^ i * 1000 :: rest.delays⟩

/-- `withRetry(fn, maxRetries = 3)`. -/
def withRetry {α : Type} (fn : Nat → Except JsError α)
    (maxRetries : Nat := 3) : RetryTrace α :=
  withRetryGo fn maxRetries 0

/-! ## Batch triage (`batch_triage` handler, `src/index.ts`) -/

/-- A fetched open issue as consumed by the batch loop. -/
structure BatchIssue where
  number : Nat
  title : String
  body : String
  labels : List String
deriving DecidableEq, Repr

/-- The "already triaged" check of the batch loop (index.ts lines 814–821):
loose case-insensitive substring tests for one label per dimension. -/
def alreadyTriagedLabels (labels : List String) : Bool :=
  let existingLabels := labels.map lowerStr
  let hasTypeLabel := existingLabels.any (fun l =>
    containsStr l "type-" || containsStr l "bug" || containsStr l "feature")
  let hasPriorityLabel := existingLabels.any (fun l =>
    containsStr l "p0" || containsStr l "p1" || containsStr l "p2" ||
    containsStr l "p3")
  let hasComplexityLabel := existingLabels.any (fun l =>
    containsStr l "complexity-")
  hasTypeLabel && hasPriorityLabel && hasComplexityLabel

/-- The `stats` counters of the batch loop (histograms omitted — no claim
concerns them). -/
structure BatchStats where
  triaged : Nat
  skipped : Nat
  failed : Nat
deriving DecidableEq, Repr

/-- Observable state of a batch run: the counters, which issues the oracle
was invoked for, and which label sets were applied to which issues. -/
structure BatchTrace where
  stats : BatchStats
  oracleCalls : List Nat
  applied : List (Nat × List String)
deriving DecidableEq, Repr

def initialBatchTrace : BatchTrace := ⟨⟨0, 0, 0⟩, [], []⟩

/-- One iteration of the batch loop body (index.ts lines 808–874):
skip check, classification (an oracle invocation that may fail), and — when
not a dry run — label application that may fail; every failure is caught,
increments `failed`, and the loop moves on. -/
def processBatchIssue (dryRun : Bool)
    (classifyO : BatchIssue → Except String Classification)
    (applyO : BatchIssue → List String → Except String Unit)
    (t : BatchTrace) (issue : BatchIssue) : BatchTrace :=
  if alreadyTriagedLabels issue.labels then
    { t with stats := { t.stats with skipped := t.stats.skipped + 1 } }
  else
    let t0 := { t with oracleCalls := t.oracleCalls ++ [issue.number] }
    match classifyO issue with
    | .error _ =>
      { t0 with stats := { t0.stats with failed := t0.stats.failed + 1 } }
    | .ok c =>
      let t1 := { t0 with stats := { t0.stats with triaged := t0.stats.triaged + 1 } }
      if dryRun then t1
      else
        match applyO issue (batchLabels c) with
        | .ok _ => { t1 with applied := t1.applied ++ [(issue.number, batchLabels c)] }
        | .error _ =>
          { t1 with stats := { t1.stats with failed := t1.stats.failed + 1 } }

/-- The batch loop over the fetched issues. -/
def runBatch (dryRun : Bool)
    (classifyO : BatchIssue → Except String Classification)
    (applyO : BatchIssue → List String → Except String Unit) :
    BatchTrace → List BatchIssue → BatchTrace
  | t, [] => t
  | t, issue :: rest =>
    runBatch dryRun classifyO applyO
      (processBatchIssue dryRun classifyO applyO t issue) rest

/-- `batch_triage` as a whole: a failing initial bulk fetch is the only
whole-batch failure; otherwise the loop runs to completion. -/
def batchTriage (dryRun : Bool)
    (classifyO : BatchIssue → Except String Classification)
    (applyO : BatchIssue → List String → Except String Unit)
    (fetch : Except String (List BatchIssue)) : Except String BatchTrace :=
  match fetch with
  | .error e => .error e
  | .ok issues => .ok (runBatch dryRun classifyO applyO initialBatchTrace issues)

/-- An issue whose processing fails: its classification fails, or (outside a
dry run) its label application fails. -/
def batchItemFails (dryRun : Bool)
    (classifyO : BatchIssue → Except String Classification)
    (applyO : BatchIssue → List String → Except String Unit)
    (issue : BatchIssue) : Bool :=
  !alreadyTriagedLabels issue.labels &&
    (match classifyO issue with
     | .error _ => true
     | .ok c =>
       !dryRun &&
         (match applyO issue (batchLabels c) with
          | .error _ => true
          | .ok _ => false))

/-! ## Contributor-mode ranking (`triage_issue` contributor branch) -/

/-- A search-returned issue as consumed by the contributor branch. -/
structure SearchIssue where
  number : Nat
  title : String
  body : String
  labels : List String
  comments : Option Nat
  assignee : Bool
deriving DecidableEq, Repr

/-- `calculateScore(issue)`: base 100, comment-count penalty capped at 30,
then the four label bonuses.  All JS arithmetic here stays non-negative
(the penalty is at most 30 < 100), so `Nat` is exact. -/
def calculateScore (issue : SearchIssue) : Nat :=
  let commentCount := issue.comments.getD 0
  let afterPenalty := 100 - min (commentCount * 5) 30
  let labelNames := issue.labels.map lowerStr
  let goodFirst := labelNames.any (fun l =>
    containsStr l "good first issue" || containsStr l "good-first-issue")
  let helpWanted := labelNames.any (fun l =>
    containsStr l "help wanted" || containsStr l "help-wanted")
  let easyBeginner := labelNames.any (fun l =>
    containsStr l "easy" || containsStr l "beginner")
  let docs := labelNames.any (fun l =>
    containsStr l "documentation" || containsStr l "docs")
  afterPenalty + (if goodFirst then 50 else 0) + (if helpWanted then 30 else 0) +
    (if easyBeginner then 40 else 0) + (if docs then 20 else 0)

/-- An entry of the ranked list, remembering the issue's position in the
original fetch order. -/
structure RankedIssue where
  fetchIdx : Nat
  issue : SearchIssue
  score : Nat
deriving DecidableEq, Repr

/-- The order realized by `.sort((a, b) => b.score - a.score)` on a stable
sort: higher score first, original fetch order among equal scores. -/
def rankBefore (a b : RankedIssue) : Prop :=
  b.score < a.score ∨ (a.score = b.score ∧ a.fetchIdx ≤ b.fetchIdx)

instance : DecidableRel rankBefore := fun a b => by
  unfold rankBefore; exact inferInstance

instance : IsTotal RankedIssue rankBefore :=
  ⟨by intro a b; unfold rankBefore; omega⟩

instance : IsTrans RankedIssue rankBefore :=
  ⟨by intro a b c; unfold rankBefore; omega⟩

/-- The contributor-mode pipeline on the fetched issues: filter out assigned
issues, score the rest, and sort by score descending.  ECMAScript's
`Array.prototype.sort` is stable, so the sort is modelled as a stable
insertion sort under `rankBefore` on fetch-index-tagged entries. -/
def rankIssues (issues : List SearchIssue) : List RankedIssue :=
  List.insertionSort rankBefore
    (((issues.filter (fun i => !i.assignee)).enum).map
      (fun p => ⟨p.1, p.2, calculateScore p.2⟩))

end Autotriage

namespace Autotriage

/-! ## Helper lemmas -/

/-- A bad oracle response always validates to the fixed fallback. -/
theorem validateGemini_eq_fallback_of_bad (parsed : Option GeminiJson)
    (hbad : badGeminiResponse parsed = true) :
    validateGeminiResponse parsed = fallbackClassification := by
  cases parsed with
  | none => rfl
  | some p =>
    unfold validateGeminiResponse
    by_cases hmiss : (!strTruthy p.type? || !strTruthy p.priority? ||
        !strTruthy p.complexity? || !strTruthy p.reasoning?) = true
    · simp [hmiss]
    · simp only [badGeminiResponse, Bool.or_eq_true] at hbad
      simp only [Bool.or_eq_true] at hmiss
      rcases ht : parseIssueType (p.type?.getD "") with _ | t <;>
        rcases hpr : parseIssuePriority (p.priority?.getD "") with _ | pr <;>
          rcases hcx : parseIssueComplexity (p.complexity?.getD "") with _ | cx <;>
            simp_all

/-- `String.data` distributes over append. -/
theorem data_append (a b : String) : (a ++ b).data = a.data ++ b.data := by
  cases a; cases b; rfl

/-- Every list is prefixed by itself followed by anything. -/
theorem isPrefixB_self_append (p : List Char) :
    ∀ t, isPrefixB p (p ++ t) = true := by
  induction p with
  | nil => intro t; rfl
  | cons a as ih => intro t; simp [isPrefixB, ih]

/-- A prefix occurs as a substring. -/
theorem containsSub_of_isPrefixB (p s : List Char)
    (h : isPrefixB p s = true) : containsSub p s = true := by
  cases s <;> simp [containsSub, h]

/-- The generated triage comment carries the signature. -/
theorem generateTriageComment_hasSignature (c : Classification) :
    commentHasSignature (some (generateTriageComment c)) = true := by
  show containsSub TRIAGE_COMMENT_SIGNATURE.data (generateTriageComment c).data = true
  unfold generateTriageComment
  rw [data_append]
  exact containsSub_of_isPrefixB _ _ (isPrefixB_self_append _ _)

/-- Signature-comment counts add over comment-list concatenation. -/
theorem countSignatureComments_append (cs ds : List (Option String)) :
    countSignatureComments (cs ++ ds) =
      countSignatureComments cs + countSignatureComments ds := by
  simp [countSignatureComments, List.filter_append]

/-- The guard reports no existing comment exactly when no comment carries the
signature. -/
theorem checkExisting_eq_false_iff (cs : List (Option String)) :
    checkExistingTriageComment cs = false ↔ countSignatureComments cs = 0 := by
  induction cs with
  | nil => simp [checkExistingTriageComment, countSignatureComments]
  | cons x xs ih =>
    by_cases hx : commentHasSignature x
    · simp [checkExistingTriageComment, countSignatureComments, hx,
        List.filter_cons]
    · simp only [checkExistingTriageComment, countSignatureComments, hx,
        List.any_cons, List.filter_cons, if_neg hx, Bool.false_or]
      exact ih

/-- Once a signature comment exists, further triage runs change nothing. -/
theorem triageCommentRuns_stable (c : Classification) (n : Nat) :
    ∀ cs, 0 < countSignatureComments cs → triageCommentRuns c n cs = cs := by
  induction n with
  | zero => intro cs _; rfl
  | succ k ih =>
    intro cs hpos
    have hc : checkExistingTriageComment cs = true := by
      cases hb : checkExistingTriageComment cs with
      | false => have := (checkExisting_eq_false_iff cs).mp hb; omega
      | true => rfl
    show triageCommentRuns c k (triageCommentStep c cs).1 = cs
    rw [show (triageCommentStep c cs).1 = cs by simp [triageCommentStep, hc]]
    exact ih cs hpos

end Autotriage

namespace Autotriage

/-! ## Claim theorems -/

/-- C1: whenever the P0 keyword heuristic fires on the combined title/body
text, `classifyIssue` forces priority `P0` and prefixes the oracle's reasoning
with the override notice, leaving the oracle's type and complexity unchanged —
regardless of which priority the oracle returned. -/
theorem classifyIssue_p0_override (title body : String) (oracle : Classification)
    (h : checkP0Keywords title body = true) :
    classifyIssue title body oracle =
      { type := oracle.type, priority := .P0, complexity := oracle.complexity,
        reasoning := "P0 override applied due to critical keywords. " ++
          oracle.reasoning } := by
  simp [classifyIssue, h]

/-- Witness for C1: a P3 answer from the oracle on an "urgent ... crash" issue
is still overridden to P0. -/
theorem classifyIssue_p0_override_witness :
    checkP0Keywords "urgent: app crash on startup" "" = true ∧
    classifyIssue "urgent: app crash on startup" "" ⟨.feature, .P3, .High, "minor"⟩ =
      { type := IssueType.feature, priority := .P0, complexity := .High,
        reasoning := "P0 override applied due to critical keywords. " ++ "minor" } :=
  ⟨by decide,
   classifyIssue_p0_override "urgent: app crash on startup" ""
     ⟨.feature, .P3, .High, "minor"⟩ (by decide)⟩

/-- C2 counterexample: the fallback classification returned on a parse failure
carries the reasoning "Classification failed, using default values" (capital
C), not the string "classification failed, using default values" stated by the
claim. -/
theorem gemini_fallback_reasoning_counterexample :
    classifyIssueWithGemini (Except.ok none) = Except.ok fallbackClassification ∧
    fallbackClassification.reasoning ≠ "classification failed, using default values" :=
  ⟨rfl, by decide⟩

/-- C2 (amended: the fallback reasoning is "Classification failed, using
default values", with a capital C): every oracle response that fails to parse,
misses a required field, or carries an out-of-enumeration value yields the
fixed fallback classification without an error, while a total oracle-invocation
failure propagates as an error. -/
theorem gemini_fallback_safety :
    (∀ parsed : Option GeminiJson, badGeminiResponse parsed = true →
      classifyIssueWithGemini (Except.ok parsed) = Except.ok fallbackClassification) ∧
    (∀ e : String, classifyIssueWithGemini (Except.error e) = Except.error e) ∧
    fallbackClassification =
      ⟨.bug, .P2, .Medium, "Classification failed, using default values"⟩ := by
  refine ⟨?_, fun _ => rfl, rfl⟩
  intro parsed hbad
  show Except.ok (validateGeminiResponse parsed) = _
  rw [validateGemini_eq_fallback_of_bad parsed hbad]

/-- Witness for C2: an out-of-enumeration priority "P9" degrades to the
fallback; a network error propagates. -/
theorem gemini_fallback_safety_witness :
    badGeminiResponse (some ⟨some "bug", some "P9", some "Medium", some "r"⟩) = true ∧
    classifyIssueWithGemini
        (Except.ok (some ⟨some "bug", some "P9", some "Medium", some "r"⟩)) =
      Except.ok fallbackClassification ∧
    classifyIssueWithGemini (Except.error "network down") =
      Except.error "network down" :=
  ⟨by decide,
   gemini_fallback_safety.1 (some ⟨some "bug", some "P9", some "Medium", some "r"⟩)
     (by decide),
   gemini_fallback_safety.2.1 "network down"⟩

/-- C3: reconciliation removes exactly the current labels with a
`type-`/`priority-`/`complexity-` prefix, never touches non-triage labels such
as "good first issue", and adds exactly the three canonical kebab-case labels
(on which case-insensitive deduplication is the identity); including the
spec's concrete example. -/
theorem reconcile_label_delta :
    (∀ (current : List String) (l : String),
        l ∈ triageLabelsToRemove current ↔ l ∈ current ∧ isTriageLabel l = true) ∧
    isTriageLabel "good first issue" = false ∧
    (∀ c : Classification, dedupeLabels (mapToKebabLabels c) = mapToKebabLabels c) ∧
    triageLabelsToRemove ["type-bug", "priority-p3", "good first issue"] =
      ["type-bug", "priority-p3"] ∧
    (∀ r : String, dedupeLabels (mapToKebabLabels ⟨.feature, .P1, .High, r⟩) =
      ["type-feature", "priority-p1", "complexity-high"]) := by
  refine ⟨?_, by decide, ?_, by decide, fun r => rfl⟩
  · intro current l
    simp [triageLabelsToRemove, List.mem_filter]
  · rintro ⟨t, p, cx, r⟩
    cases t <;> cases p <;> cases cx <;> rfl

/-- C4 (code bug): the `batch_triage` handler labels priority with the bare
upper-cased priority name ("P1"), which does not match the lowercase
`priority-<pN>` convention that the maintainer path (`mapToKebabLabels`)
follows and the repository's own README documents. -/
theorem batch_priority_label_breaks_convention :
    batchLabels ⟨.bug, .P1, .Medium, "r"⟩ = ["type-bug", "P1", "complexity-medium"] ∧
    (batchLabels ⟨.bug, .P1, .Medium, "r"⟩).all isConventionLabel = false ∧
    (∀ c : Classification, (mapToKebabLabels c).all isConventionLabel = true) ∧
    mapToKebabLabels ⟨.bug, .P1, .Medium, "r"⟩ =
      ["type-bug", "priority-p1", "complexity-medium"] := by
  refine ⟨by decide, by decide, ?_, by decide⟩
  rintro ⟨t, p, cx, r⟩
  cases t <;> cases p <;> cases cx <;> rfl

/-- C9: bodies of at most 2000 characters pass through truncation unchanged;
longer bodies become exactly their first 2000 characters followed by the
truncation marker. -/
theorem truncateIssueBody_spec (body : String) :
    (body.length ≤ 2000 → truncateIssueBody body = body) ∧
    (2000 < body.length →
      truncateIssueBody body = String.mk (body.data.take 2000) ++ truncationMarker ∧
      (String.mk (body.data.take 2000)).length = 2000) := by
  constructor
  · intro h
    simp [truncateIssueBody, h]
  · intro h
    refine ⟨by simp [truncateIssueBody, Nat.not_le.mpr h], ?_⟩
    show (body.data.take 2000).length = 2000
    rw [List.length_take]
    have : 2000 < body.data.length := h
    omega

/-- Witness for C9: a 5000-character body truncates to exactly 2000 characters
plus the marker; a short body is unchanged. -/
theorem truncateIssueBody_spec_witness :
    (truncateIssueBody "short body" = "short body") ∧
    (truncateIssueBody (String.mk (List.replicate 5000 'a')) =
        String.mk ((String.mk (List.replicate 5000 'a')).data.take 2000) ++
          truncationMarker ∧
      (String.mk ((String.mk (List.replicate 5000 'a')).data.take 2000)).length = 2000) :=
  ⟨(truncateIssueBody_spec "short body").1 (by decide),
   (truncateIssueBody_spec (String.mk (List.replicate 5000 'a'))).2
     (show 2000 < (List.replicate 5000 'a').length by
       rw [List.length_replicate]; omega)⟩

end Autotriage

namespace Autotriage

/-- C5: maintainer-mode triage posts the rationale comment exactly when the
annotation guard finds no comment carrying the fixed signature; triaging the
same unchanged record N ≥ 1 times leaves exactly one signature comment — the
first run posts it, every later run reports the existing comment preserved. -/
theorem triage_comment_posted_once (c : Classification)
    (comments : List (Option String)) (n : Nat)
    (h0 : countSignatureComments comments = 0) (hn : 1 ≤ n) :
    countSignatureComments (triageCommentRuns c n comments) = 1 ∧
    triageCommentRuns c n comments =
      comments ++ [some (generateTriageComment c)] ∧
    (∀ cs, checkExistingTriageComment cs = false →
      triageCommentStep c cs = (cs ++ [some (generateTriageComment c)], false)) ∧
    (∀ cs, checkExistingTriageComment cs = true →
      triageCommentStep c cs = (cs, true)) ∧
    (∀ m, 1 ≤ m →
      (triageCommentStep c (triageCommentRuns c m comments)).2 = true) := by
  have hcheck0 : checkExistingTriageComment comments = false :=
    (checkExisting_eq_false_iff comments).mpr h0
  have hcount1 :
      countSignatureComments (comments ++ [some (generateTriageComment c)]) = 1 := by
    rw [countSignatureComments_append, h0]
    simp [countSignatureComments, List.filter_cons, generateTriageComment_hasSignature c]
  have key : ∀ m, 1 ≤ m → triageCommentRuns c m comments =
      comments ++ [some (generateTriageComment c)] := by
    intro m hm
    cases m with
    | zero => omega
    | succ k =>
      show triageCommentRuns c k (triageCommentStep c comments).1 = _
      rw [show (triageCommentStep c comments).1 =
          comments ++ [some (generateTriageComment c)] by
        simp [triageCommentStep, hcheck0]]
      exact triageCommentRuns_stable c k _ (by omega)
  refine ⟨?_, key n hn, ?_, ?_, ?_⟩
  · rw [key n hn]; exact hcount1
  · intro cs hcs; simp [triageCommentStep, hcs]
  · intro cs hcs; simp [triageCommentStep, hcs]
  · intro m hm
    rw [key m hm]
    have hc : checkExistingTriageComment
        (comments ++ [some (generateTriageComment c)]) = true := by
      cases hb : checkExistingTriageComment
          (comments ++ [some (generateTriageComment c)]) with
      | false =>
        have := (checkExisting_eq_false_iff _).mp hb
        omega
      | true => rfl
    simp [triageCommentStep, hc]

/-- Witness for C5: two successive runs on a record with one unrelated comment
leave exactly one signature comment. -/
theorem triage_comment_posted_once_witness :
    countSignatureComments
      (triageCommentRuns ⟨.bug, .P2, .Medium, "demo"⟩ 2 [some "hello", none]) = 1 :=
  (triage_comment_posted_once ⟨.bug, .P2, .Medium, "demo"⟩ [some "hello", none] 2
    (by decide) (by decide)).1

end Autotriage

namespace Autotriage

/-- On an always-rate-limited call, the retry loop makes every remaining
attempt, sleeping the doubling delays, and surfaces the failure. -/
theorem withRetryGo_all_rate_limited {α : Type} (fn : Nat → Except JsError α)
    (e : JsError) (he : isRateLimitError e = true)
    (hfn : ∀ i, fn i = .error e) :
    ∀ r i, 1 ≤ r → withRetryGo fn r i =
      ⟨.failed e, List.range' i r,
       (List.range' i (r - 1)).map (fun k => 2 ^ k * 1000)⟩ := by
  intro r
  induction r with
  | zero => intro i h; omega
  | succ r' ih =>
    intro i _
    cases r' with
    | zero =>
      show withRetryGo fn 1 i = _
      simp [withRetryGo, hfn i, he, List.range']
    | succ r'' =>
      show withRetryGo fn (r'' + 1 + 1) i = _
      rw [withRetryGo]
      rw [hfn i]
      simp only [he, Bool.not_true, Bool.false_or]
      rw [ih (i + 1) (by omega)]
      simp only [Nat.add_sub_cancel]
      simp [List.range'_succ]

/-- C8: `withRetry` retries exactly the rate-limited failures: an
always-rate-limited call is attempted `maxRetries` times with delays
`2^i · 1000 ms` slept between successive attempts (none before the first),
then surfaces the failure; a non-rate-limit failure propagates from the first
attempt with no retry and no delay. -/
theorem withRetry_rate_limit_spec {α : Type} (fn : Nat → Except JsError α)
    (e : JsError) (maxRetries : Nat) :
    (1 ≤ maxRetries → (∀ i, fn i = .error e) → isRateLimitError e = true →
      withRetry fn maxRetries =
        ⟨.failed e, List.range' 0 maxRetries,
         (List.range' 0 (maxRetries - 1)).map (fun k => 2 ^ k * 1000)⟩) ∧
    (1 ≤ maxRetries → fn 0 = .error e → isRateLimitError e = false →
      withRetry fn maxRetries = ⟨.failed e, [0], []⟩) := by
  constructor
  · intro hmax hfn he
    exact withRetryGo_all_rate_limited fn e he hfn maxRetries 0 hmax
  · intro hmax hfn0 he
    cases maxRetries with
    | zero => omega
    | succ m =>
      show withRetryGo fn (m + 1) 0 = _
      rw [withRetryGo, hfn0]
      simp [he]

/-- Witness for C8: with the default bound 3, an always-429 call is attempted
at indices 0, 1, 2 with delays 1000 ms and 2000 ms, then fails; a plain error
fails immediately after attempt 0 with no delay. -/
theorem withRetry_rate_limit_spec_witness :
    withRetry (fun _ => (Except.error ⟨some 429, none⟩ : Except JsError Nat)) 3 =
      ⟨.failed ⟨some 429, none⟩, [0, 1, 2], [1000, 2000]⟩ ∧
    withRetry (fun _ => (Except.error ⟨none, some "boom"⟩ : Except JsError Nat)) 3 =
      ⟨.failed ⟨none, some "boom"⟩, [0], []⟩ :=
  ⟨(withRetry_rate_limit_spec (fun _ => Except.error ⟨some 429, none⟩)
      ⟨some 429, none⟩ 3).1 (by decide) (fun _ => rfl) (by decide),
   (withRetry_rate_limit_spec (fun _ => Except.error ⟨none, some "boom"⟩)
      ⟨none, some "boom"⟩ 3).2 (by decide) rfl (by decide)⟩

end Autotriage

namespace Autotriage

/-- Effect of one batch-loop iteration on the observable trace. -/
theorem processBatchIssue_effect (dryRun : Bool)
    (cO : BatchIssue → Except String Classification)
    (aO : BatchIssue → List String → Except String Unit)
    (t : BatchTrace) (issue : BatchIssue) :
    (processBatchIssue dryRun cO aO t issue).stats.skipped =
        t.stats.skipped + (if alreadyTriagedLabels issue.labels then 1 else 0) ∧
    (processBatchIssue dryRun cO aO t issue).stats.failed =
        t.stats.failed + (if batchItemFails dryRun cO aO issue then 1 else 0) ∧
    (processBatchIssue dryRun cO aO t issue).oracleCalls =
        t.oracleCalls ++
          (if alreadyTriagedLabels issue.labels then [] else [issue.number]) ∧
    ((processBatchIssue dryRun cO aO t issue).applied = t.applied ∨
      (alreadyTriagedLabels issue.labels = false ∧
        ∃ ls, (processBatchIssue dryRun cO aO t issue).applied =
          t.applied ++ [(issue.number, ls)])) := by
  unfold processBatchIssue batchItemFails
  by_cases h : alreadyTriagedLabels issue.labels
  · simp [h]
  · rcases hc : cO issue with e | c
    · simp [h, hc]
    · by_cases hd : dryRun
      · simp [h, hc, hd]
      · rcases ha : aO issue (batchLabels c) with e2 | u
        · simp [h, hc, hd, ha]
        · refine ⟨by simp [h, hc, hd, ha], by simp [h, hc, hd, ha], by simp [h, hc, hd, ha], ?_⟩
          exact Or.inr ⟨by simp [h], batchLabels c, by simp [h, hc, hd, ha]⟩

/-- Skipped-counter invariant of the batch loop. -/
theorem runBatch_skipped (dryRun : Bool)
    (cO : BatchIssue → Except String Classification)
    (aO : BatchIssue → List String → Except String Unit) :
    ∀ (issues : List BatchIssue) (t : BatchTrace),
      (runBatch dryRun cO aO t issues).stats.skipped =
        t.stats.skipped +
          (issues.filter (fun i => alreadyTriagedLabels i.labels)).length := by
  intro issues
  induction issues with
  | nil => intro t; simp [runBatch]
  | cons issue rest ih =>
    intro t
    show (runBatch dryRun cO aO (processBatchIssue dryRun cO aO t issue) rest).stats.skipped = _
    rw [ih, (processBatchIssue_effect dryRun cO aO t issue).1]
    by_cases h : alreadyTriagedLabels issue.labels
    · simp [h, List.filter_cons]; omega
    · simp [h, List.filter_cons]

/-- Failed-counter invariant of the batch loop. -/
theorem runBatch_failed (dryRun : Bool)
    (cO : BatchIssue → Except String Classification)
    (aO : BatchIssue → List String → Except String Unit) :
    ∀ (issues : List BatchIssue) (t : BatchTrace),
      (runBatch dryRun cO aO t issues).stats.failed =
        t.stats.failed + (issues.filter (batchItemFails dryRun cO aO)).length := by
  intro issues
  induction issues with
  | nil => intro t; simp [runBatch]
  | cons issue rest ih =>
    intro t
    show (runBatch dryRun cO aO (processBatchIssue dryRun cO aO t issue) rest).stats.failed = _
    rw [ih, (processBatchIssue_effect dryRun cO aO t issue).2.1]
    by_cases h : batchItemFails dryRun cO aO issue
    · simp [h, List.filter_cons]; omega
    · simp [h, List.filter_cons]

/-- Oracle-invocation invariant of the batch loop. -/
theorem runBatch_oracleCalls (dryRun : Bool)
    (cO : BatchIssue → Except String Classification)
    (aO : BatchIssue → List String → Except String Unit) :
    ∀ (issues : List BatchIssue) (t : BatchTrace),
      (runBatch dryRun cO aO t issues).oracleCalls =
        t.oracleCalls ++
          (issues.filter (fun i => !alreadyTriagedLabels i.labels)).map
            BatchIssue.number := by
  intro issues
  induction issues with
  | nil => intro t; simp [runBatch]
  | cons issue rest ih =>
    intro t
    show (runBatch dryRun cO aO (processBatchIssue dryRun cO aO t issue) rest).oracleCalls = _
    rw [ih, (processBatchIssue_effect dryRun cO aO t issue).2.2.1]
    by_cases h : alreadyTriagedLabels issue.labels <;>
      simp [h, List.filter_cons]

/-- Label applications originate only from non-skipped issues. -/
theorem runBatch_applied (dryRun : Bool)
    (cO : BatchIssue → Except String Classification)
    (aO : BatchIssue → List String → Except String Unit) :
    ∀ (issues : List BatchIssue) (t : BatchTrace)
      (entry : Nat × List String),
      entry ∈ (runBatch dryRun cO aO t issues).applied →
      entry ∈ t.applied ∨
        ∃ i ∈ issues, alreadyTriagedLabels i.labels = false ∧
          entry.1 = i.number := by
  intro issues
  induction issues with
  | nil => intro t entry h; exact Or.inl h
  | cons issue rest ih =>
    intro t entry h
    have h' : entry ∈ (runBatch dryRun cO aO
        (processBatchIssue dryRun cO aO t issue) rest).applied := h
    rcases ih (processBatchIssue dryRun cO aO t issue) entry h' with hbase | ⟨i, hi, hskip, hnum⟩
    · rcases (processBatchIssue_effect dryRun cO aO t issue).2.2.2 with heq | ⟨hskip, ls, heq⟩
      · rw [heq] at hbase; exact Or.inl hbase
      · rw [heq] at hbase
        rcases List.mem_append.mp hbase with hin | hsingle
        · exact Or.inl hin
        · rcases List.mem_singleton.mp hsingle with rfl
          exact Or.inr ⟨issue, List.mem_cons_self issue rest, hskip, rfl⟩
    · exact Or.inr ⟨i, List.mem_cons_of_mem issue hi, hskip, hnum⟩

end Autotriage

namespace Autotriage

/-- C6: in batch triage, an issue already carrying (by the loose
case-insensitive substring checks) a label on each of the three dimensions is
counted as skipped, never reaches the oracle, and never has labels applied;
every other fetched issue has the oracle invoked for it.  The labels "bug",
"P1", "complexity-medium" satisfy the check. -/
theorem batch_skip_rule (dryRun : Bool)
    (cO : BatchIssue → Except String Classification)
    (aO : BatchIssue → List String → Except String Unit)
    (issues : List BatchIssue) :
    (runBatch dryRun cO aO initialBatchTrace issues).oracleCalls =
      (issues.filter (fun i => !alreadyTriagedLabels i.labels)).map
        BatchIssue.number ∧
    (runBatch dryRun cO aO initialBatchTrace issues).stats.skipped =
      (issues.filter (fun i => alreadyTriagedLabels i.labels)).length ∧
    (∀ entry ∈ (runBatch dryRun cO aO initialBatchTrace issues).applied,
      ∃ i ∈ issues, alreadyTriagedLabels i.labels = false ∧
        entry.1 = i.number) ∧
    alreadyTriagedLabels ["bug", "P1", "complexity-medium"] = true := by
  refine ⟨?_, ?_, ?_, by decide⟩
  · rw [runBatch_oracleCalls dryRun cO aO issues initialBatchTrace]
    rfl
  · rw [runBatch_skipped dryRun cO aO issues initialBatchTrace]
    simp [initialBatchTrace]
  · intro entry hentry
    rcases runBatch_applied dryRun cO aO issues initialBatchTrace entry hentry with h | h
    · exact absurd h (List.not_mem_nil entry)
    · exact h

end Autotriage

namespace Autotriage

/-- Witness for C6: of two fetched issues, the one labeled
["bug", "P1", "complexity-medium"] is skipped (no oracle call, no labels
applied), the unlabeled one is classified. -/
theorem batch_skip_rule_witness :
    (runBatch false (fun _ => Except.ok ⟨.bug, .P2, .Medium, "r"⟩)
        (fun _ _ => Except.ok ()) initialBatchTrace
        [⟨1, "t1", "b1", ["bug", "P1", "complexity-medium"]⟩,
         ⟨2, "t2", "b2", []⟩]).oracleCalls = [2] ∧
    (runBatch false (fun _ => Except.ok ⟨.bug, .P2, .Medium, "r"⟩)
        (fun _ _ => Except.ok ()) initialBatchTrace
        [⟨1, "t1", "b1", ["bug", "P1", "complexity-medium"]⟩,
         ⟨2, "t2", "b2", []⟩]).stats.skipped = 1 ∧
    (∃ i ∈ [(⟨1, "t1", "b1", ["bug", "P1", "complexity-medium"]⟩ : BatchIssue),
            ⟨2, "t2", "b2", []⟩],
      alreadyTriagedLabels i.labels = false ∧
        ((2 : Nat), ["type-bug", "P2", "complexity-medium"]).1 = i.number) :=
  ⟨(batch_skip_rule false (fun _ => Except.ok ⟨.bug, .P2, .Medium, "r"⟩)
      (fun _ _ => Except.ok ())
      [⟨1, "t1", "b1", ["bug", "P1", "complexity-medium"]⟩,
       ⟨2, "t2", "b2", []⟩]).1,
   (batch_skip_rule false (fun _ => Except.ok ⟨.bug, .P2, .Medium, "r"⟩)
      (fun _ _ => Except.ok ())
      [⟨1, "t1", "b1", ["bug", "P1", "complexity-medium"]⟩,
       ⟨2, "t2", "b2", []⟩]).2.1,
   (batch_skip_rule false (fun _ => Except.ok ⟨.bug, .P2, .Medium, "r"⟩)
      (fun _ _ => Except.ok ())
      [⟨1, "t1", "b1", ["bug", "P1", "complexity-medium"]⟩,
       ⟨2, "t2", "b2", []⟩]).2.2.1
      (2, ["type-bug", "P2", "complexity-medium"]) (by decide)⟩

/-- C7: a failing item only increments the `failed` counter — the batch loop
always continues with the next issue and runs to completion; the whole batch
fails exactly when the initial bulk fetch fails. -/
theorem batch_failure_isolation (dryRun : Bool)
    (cO : BatchIssue → Except String Classification)
    (aO : BatchIssue → List String → Except String Unit) :
    (∀ issues, (runBatch dryRun cO aO initialBatchTrace issues).stats.failed =
      (issues.filter (batchItemFails dryRun cO aO)).length) ∧
    (∀ issues, batchTriage dryRun cO aO (Except.ok issues) =
      Except.ok (runBatch dryRun cO aO initialBatchTrace issues)) ∧
    (∀ e, batchTriage dryRun cO aO (Except.error e) = Except.error e) ∧
    (∀ t issue rest, runBatch dryRun cO aO t (issue :: rest) =
      runBatch dryRun cO aO (processBatchIssue dryRun cO aO t issue) rest) := by
  refine ⟨?_, fun _ => rfl, fun _ => rfl, fun _ _ _ => rfl⟩
  intro issues
  rw [runBatch_failed dryRun cO aO issues initialBatchTrace]
  simp [initialBatchTrace]

end Autotriage

namespace Autotriage

/-- The value component of an `enumFrom` entry belongs to the list. -/
theorem snd_mem_of_mem_enumFrom {α : Type} :
    ∀ (l : List α) (n : Nat) (p : Nat × α), p ∈ l.enumFrom n → p.2 ∈ l := by
  intro l
  induction l with
  | nil => intro n p hp; simp [List.enumFrom] at hp
  | cons a as ih =>
    intro n p hp
    have hp2 : p ∈ (n, a) :: as.enumFrom (n + 1) := hp
    rcases List.mem_cons.mp hp2 with h | hp'
    · rw [h]; exact List.mem_cons_self a as
    · exact List.mem_cons_of_mem _ (ih (n + 1) p hp')

/-- The value component of an `enum` entry belongs to the list. -/
theorem snd_mem_of_mem_enum {α : Type} (l : List α) (p : Nat × α)
    (hp : p ∈ l.enum) : p.2 ∈ l :=
  snd_mem_of_mem_enumFrom l 0 p hp

/-- C10: contributor-mode ranking drops every assigned issue, scores the rest
by `calculateScore`, is a permutation of the fetch-order-tagged scored issues,
and is ordered by score descending with ties kept in original fetch order
(stability of the sort). -/
theorem ranking_spec (issues : List SearchIssue) :
    ((rankIssues issues).all (fun item =>
      !item.issue.assignee && item.score == calculateScore item.issue)) = true ∧
    List.Perm (rankIssues issues)
      (((issues.filter (fun i => !i.assignee)).enum).map
        (fun p => ⟨p.1, p.2, calculateScore p.2⟩)) ∧
    List.Pairwise
      (fun a b => b.score < a.score ∨
        (a.score = b.score ∧ a.fetchIdx < b.fetchIdx))
      (rankIssues issues) := by
  have hperm : List.Perm (rankIssues issues)
      (((issues.filter (fun i => !i.assignee)).enum).map
        (fun p => ⟨p.1, p.2, calculateScore p.2⟩)) :=
    List.perm_insertionSort rankBefore _
  refine ⟨?_, hperm, ?_⟩
  · rw [List.all_eq_true]
    intro item hitem
    have hmem := (List.Perm.mem_iff hperm).mp hitem
    rcases List.mem_map.mp hmem with ⟨p, hp, rfl⟩
    have hsnd : p.2 ∈ issues.filter (fun i => !i.assignee) :=
      snd_mem_of_mem_enum _ p hp
    have hassign : (!p.2.assignee) = true := (List.mem_filter.mp hsnd).2
    simp [hassign]
  · have hsorted : List.Sorted rankBefore (rankIssues issues) :=
      List.sorted_insertionSort rankBefore _
    have hfst : (((issues.filter (fun i => !i.assignee)).enum).map
        (fun p => (⟨p.1, p.2, calculateScore p.2⟩ : RankedIssue))).map
          (fun it => it.fetchIdx) =
        List.range (issues.filter (fun i => !i.assignee)).length := by
      rw [List.map_map]
      exact List.enum_map_fst _
    have hnodup_tagged : ((((issues.filter (fun i => !i.assignee)).enum).map
        (fun p => (⟨p.1, p.2, calculateScore p.2⟩ : RankedIssue))).map
          (fun it => it.fetchIdx)).Nodup := by
      rw [hfst]; exact List.nodup_range _
    have hnodup : ((rankIssues issues).map (fun it => it.fetchIdx)).Nodup :=
      ((hperm.map (fun it => it.fetchIdx)).nodup_iff).mpr hnodup_tagged
    have hpne : List.Pairwise
        (fun a b : RankedIssue => a.fetchIdx ≠ b.fetchIdx)
        (rankIssues issues) := List.pairwise_map.mp hnodup
    refine List.Pairwise.imp ?_ (List.Pairwise.and hsorted hpne)
    rintro a b ⟨hr, hne⟩
    rcases hr with h1 | ⟨he, hle⟩
    · exact Or.inl h1
    · exact Or.inr ⟨he, lt_of_le_of_ne hle hne⟩

end Autotriage
